import Mathlib

/-!
Verification of the Offensive-AI-Cybersecurity-Simulator against its
natural-language specification.

The repository ships the React frontend (`frontend/src/components/*.jsx`);
the backend analysis core (hash simulator, guess sources, pattern detector,
risk scorer, behavior aggregator) is not present in the source tree, so the
backend components are modelled from the specification (each such definition
carries a doc comment starting `Modelled from the spec:`).  Frontend helper
functions are embedded directly from the JSX source.

Scores that are JavaScript numbers are modelled as rationals (ℚ); strings
are Lean `String`s, manipulated through their character lists so that all
definitions evaluate inside the kernel.
-/

namespace OffSim

/-! ## Definitions

### Frontend risk-label functions

Embedded from `getRiskLabel` in `PasswordSimulator.jsx` (lines 202-208),
`PhishingSimulator.jsx` (lines 95-100) and `VishingSimulator.jsx`
(lines 161-166). -/

/-- `getRiskLabel` from `PasswordSimulator.jsx`:
five branches, inclusive lower bounds 80/60/40/20. -/
def getRiskLabelPassword (score : ℚ) : String :=
  if score ≥ 80 then "Critical"
  else if score ≥ 60 then "High"
  else if score ≥ 40 then "Medium"
  else if score ≥ 20 then "Low"
  else "Very Low"

/-- `getRiskLabel` from `PhishingSimulator.jsx`:
four branches only, everything below 40 is "Low Risk". -/
def getRiskLabelPhishing (score : ℚ) : String :=
  if score ≥ 80 then "Critical Risk"
  else if score ≥ 60 then "High Risk"
  else if score ≥ 40 then "Medium Risk"
  else "Low Risk"

/-- `getRiskLabel` from `VishingSimulator.jsx`:
identical text to the phishing version, four branches. -/
def getRiskLabelVishing (score : ℚ) : String :=
  if score ≥ 80 then "Critical Risk"
  else if score ≥ 60 then "High Risk"
  else if score ≥ 40 then "Medium Risk"
  else "Low Risk"

/-- Severity rank of a risk label, for stating monotonicity. -/
def riskRank : String → Nat
  | "Critical" => 4
  | "Critical Risk" => 4
  | "High" => 3
  | "High Risk" => 3
  | "Medium" => 2
  | "Medium Risk" => 2
  | "Low" => 1
  | "Low Risk" => 1
  | _ => 0

/-- `getAwarenessLabel` from `UserBehaviorAnalysis.jsx` (lines 42-46). -/
def getAwarenessLabel (score : ℚ) : String :=
  if score ≥ 70 then "High Awareness"
  else if score ≥ 50 then "Moderate Awareness"
  else "Low Awareness"

/-- Rank of an awareness label, for stating monotonicity. -/
def awarenessRank : String → Nat
  | "High Awareness" => 2
  | "Moderate Awareness" => 1
  | _ => 0

/-! ### String helpers (kernel-computable models of the JS string methods) -/

/-- JavaScript `toLowerCase`, modelled character-wise. -/
def strToLower (s : String) : String :=
  String.mk (s.data.map Char.toLower)

/-- JavaScript `toUpperCase`, modelled character-wise. -/
def strToUpper (s : String) : String :=
  String.mk (s.data.map Char.toUpper)

/-- JavaScript `endsWith`: the second string is a suffix of the first. -/
def strEndsWith (s post : String) : Bool :=
  post.data.isSuffixOf s.data

/-- Substring containment: the second string occurs inside the first. -/
def containsSub (s sub : String) : Bool :=
  decide (sub.data <:+: s.data)

/-! ### Vishing audio upload (`handleFileSelect`, `VishingSimulator.jsx` lines 38-62) -/

/-- An uploaded file as observed by `handleFileSelect`: name, MIME type, size. -/
structure UploadFile where
  name : String
  mime : String
  size : Nat
deriving DecidableEq

/-- `validFormats` from `handleFileSelect`. -/
def validFormats : List String := ["audio/mpeg", "audio/wav", "audio/mp4", "audio/x-wav"]

/-- `validExtensions` from `handleFileSelect`. -/
def validExtensions : List String := [".mp3", ".wav", ".m4a"]

/-- `hasValidExtension`: some valid extension is a suffix of the lowercased name. -/
def hasValidExtension (f : UploadFile) : Bool :=
  validExtensions.any (fun ext => strEndsWith (strToLower f.name) ext)

/-- `hasValidMimetype`: the MIME type is in `validFormats` or is `audio/m4a`. -/
def hasValidMimetype (f : UploadFile) : Bool :=
  validFormats.contains f.mime || f.mime == "audio/m4a"

/-- Component state touched by `handleFileSelect`: the selected file and the
value of the file `<input>` element. -/
structure FileSelectState where
  selectedFile : Option UploadFile
  inputValue : String
deriving DecidableEq

/-- `handleFileSelect` from `VishingSimulator.jsx`, acting on the previous
component state: on either reject path the handler only clears the file
`<input>` element (`e.target.value = ''`) and returns — `setSelectedFile`
is not called, so a previously selected file stays selected; only on
acceptance is the offered file stored (the input element is left as the
browser set it). -/
def handleFileSelect (st : FileSelectState) (f : UploadFile) : FileSelectState :=
  if !hasValidExtension f && !hasValidMimetype f then ⟨st.selectedFile, ""⟩
  else if f.size > 50 * 1024 * 1024 then ⟨st.selectedFile, ""⟩
  else ⟨some f, st.inputValue⟩

/-! ### Max-length form handling (`PasswordSimulator.jsx`) -/

/-- Value of one character as a digit in the given base, `none` if invalid. -/
def digitVal (base : Nat) (c : Char) : Option Nat :=
  let v : Option Nat :=
    if c.isDigit then some (c.toNat - 48)
    else if 'a' ≤ c ∧ c ≤ 'f' then some (c.toNat - 87)
    else if 'A' ≤ c ∧ c ≤ 'F' then some (c.toNat - 55)
    else none
  match v with
  | some n => if n < base then some n else none
  | none => none

/-- Longest prefix of valid digits in the given base, as digit values. -/
def takeDigits (base : Nat) : List Char → List Nat
  | [] => []
  | c :: rest =>
    match digitVal base c with
    | some n => n :: takeDigits base rest
    | none => []

/-- Numeric value of a digit string in the given base. -/
def valOfDigits (base : Nat) (ds : List Nat) : Nat :=
  ds.foldl (fun acc d => acc * base + d) 0

/-- JavaScript `parseInt(s)` with no radix argument: skip leading
whitespace, read an optional sign, auto-detect a `0x`/`0X` hex prefix,
then parse the longest prefix of valid digits; `none` models `NaN`. -/
def parseIntJS (s : String) : Option Int :=
  let l := s.data.dropWhile (fun c => c = ' ' || c = '\t' || c = '\n' || c = '\r')
  let signed : Int × List Char :=
    match l with
    | '-' :: rest => (-1, rest)
    | '+' :: rest => (1, rest)
    | _ => (1, l)
  let based : Nat × List Char :=
    match signed.2 with
    | '0' :: 'x' :: rest => (16, rest)
    | '0' :: 'X' :: rest => (16, rest)
    | _ => (10, signed.2)
  match takeDigits based.1 based.2 with
  | [] => none
  | ds => some (signed.1 * valOfDigits based.1 ds)

/-- Analyze-form Max Length `onChange` handler (`PasswordSimulator.jsx`
line 390): `parseInt(e.target.value) || 4` — JavaScript `||` takes the
right operand exactly when the left is falsy (`NaN` or `0`). -/
def storedMaxLength (v : String) : Int :=
  match parseIntJS v with
  | none => 4
  | some n => if n = 0 then 4 else n

/-- `handleHashCrack` (`PasswordSimulator.jsx` line 132):
`e.target.maxLength?.value ? parseInt(e.target.maxLength.value) : 4` —
the empty string is falsy, so an empty field submits 4; `none` models a
submitted `NaN`. -/
def hashCrackMaxLength (v : String) : Option Int :=
  if v = "" then some 4 else parseIntJS v

/-! ### Backend core, modelled from the spec

The backend that implements §4 of the spec (HashSimulator, GuessSource,
PasswordAttackSimulator, detectors, scorers, aggregator) is not part of the
shipped source tree; every definition below is modelled from the spec. -/

/-- Modelled from the spec: the `hashAlgorithm` enum (§3); the frontend
labels MD5/SHA256/bcrypt correspond to FAST/STRONG/ADAPTIVE. -/
inductive HashAlg
  | FAST
  | STRONG
  | ADAPTIVE
deriving DecidableEq

/-- Modelled from the spec: the closed `strategy` enum (§3). -/
inductive Strategy
  | DICTIONARY
  | BRUTE_FORCE
  | HYBRID
  | AI_GUIDED
deriving DecidableEq

/-- Tag distinguishing the simulated algorithms inside a simulated digest. -/
def algTag : HashAlg → String
  | .FAST => "fast$"
  | .STRONG => "strong$"
  | .ADAPTIVE => "adaptive$"

/-- Modelled from the spec: `HashSimulator.digest(secret, algorithm)` (§4.1),
a deterministic simulated hash — no real cryptography, just an
algorithm-tagged copy of the secret (deterministic for a fixed pair). -/
def digest (secret : String) (alg : HashAlg) : String :=
  algTag alg ++ secret

/-- Modelled from the spec: `HashSimulator.verify(candidate, targetHash,
algorithm)` (§4.1): re-digest the candidate and compare. -/
def verify (candidate targetHash : String) (alg : HashAlg) : Bool :=
  digest candidate alg == targetHash

/-- Optional user metadata accompanying a request (§3). -/
structure UserMeta where
  name : String
  dob : String
deriving DecidableEq

/-- Modelled from the spec: `AttackRequest` (§3). -/
structure AttackRequest where
  secret : Option String
  targetHash : Option String
  alg : HashAlg
  strategy : Strategy
  meta : Option UserMeta
  maxAttempts : Option Nat
  maxLength : Nat
  charset : List Char
deriving DecidableEq

/-- Modelled from the spec: the core error taxonomy (§7). -/
inductive CoreError
  | InvalidInput
  | InvalidAlgorithm
deriving DecidableEq

/-- Modelled from the spec: `AttackResult` (§3), with the clamped bounds
surfaced (`BoundsClamped` echo, §7). -/
structure AttackResult where
  cracked : Option String
  attempts : Nat
  maxAttemptsUsed : Option Nat
  maxLengthUsed : Nat
  strategy : Strategy
deriving DecidableEq

/-- Modelled from the spec: the BRUTE_FORCE `maxLength ≤ 6` safety ceiling
(§4.2), applied silently to the caller's value. -/
def clampLen (n : Nat) : Nat := min n 6

/-- Modelled from the spec: the BRUTE_FORCE `maxAttempts ≤ 1000` safety
ceiling (§4.2); other strategies run under the caller's bound. -/
def clampAttempts (strategy : Strategy) (req : Option Nat) : Option Nat :=
  match strategy with
  | .BRUTE_FORCE => some (min (req.getD 1000) 1000)
  | _ => req

/-- All words of exactly the given length over the charset, lexicographic
in the charset's order (first character most significant). -/
def wordsOfLength (cs : List Char) : Nat → List (List Char)
  | 0 => [[]]
  | n + 1 => (cs.map (fun c => (wordsOfLength cs n).map (fun w => c :: w))).flatten

/-- Modelled from the spec: the BRUTE_FORCE GuessSource (§4.2) — all words
over the charset of length 1 up to `maxLen`, shorter lengths first,
lexicographic within each length. -/
def bruteForceCands (cs : List Char) (maxLen : Nat) : List (List Char) :=
  ((List.range maxLen).map (fun k => wordsOfLength cs (k + 1))).flatten

/-- Length-then-lexicographic (shortlex) order on candidate words. -/
def shortLex (a b : List Char) : Prop :=
  a.length < b.length ∨ (a.length = b.length ∧ List.Lex (· < ·) a b)

/-- Modelled from the spec: the fixed common-password wordlist (§4.2),
insertion order preserved. -/
def commonWords : List String :=
  ["password", "123456", "123456789", "qwerty", "abc123",
   "letmein", "welcome", "admin", "monkey", "dragon"]

/-- Leetspeak substitution used for dictionary variants. -/
def leetChar (c : Char) : Char :=
  if c = 'a' then '@' else if c = 'e' then '3' else if c = 'i' then '1'
  else if c = 'o' then '0' else if c = 's' then '$' else c

/-- Case/leetspeak variants of one dictionary entry (§4.2). -/
def wordVariants (w : String) : List String :=
  [w, strToUpper w, String.mk (w.data.map leetChar)]

/-- Modelled from the spec: the DICTIONARY GuessSource (§4.2) — the
deduplicated wordlist with leet/case variants, each attempted once. -/
def dictionaryCands : List String :=
  ((commonWords.map wordVariants).flatten).dedup

/-- First four characters of a `YYYY-MM-DD` date string (the birth year). -/
def yearOf (dob : String) : String :=
  String.mk (dob.data.take 4)

/-- Modelled from the spec: metadata-derived candidates of the AI_GUIDED
GuessSource (§4.2): name in original/lower/upper case, with appended birth
year, and digit suffixes, fixed priority order forward. -/
def metaCands : Option UserMeta → List String
  | none => []
  | some m =>
    (([m.name, strToLower m.name, strToUpper m.name,
       m.name ++ yearOf m.dob, strToLower m.name ++ yearOf m.dob,
       yearOf m.dob,
       m.name ++ "1", m.name ++ "123"].filter (fun s => s ≠ "")).dedup)

/-- Modelled from the spec: the AI_GUIDED GuessSource (§4.2) — metadata
candidates first, then the DICTIONARY order as fallback. -/
def aiGuidedCands (meta : Option UserMeta) : List String :=
  metaCands meta ++ dictionaryCands

/-- Stable interleaving of two candidate streams. -/
def interleave : List String → List String → List String
  | [], ys => ys
  | x :: xs, ys => x :: interleave ys xs
termination_by xs ys => xs.length + ys.length

/-- Modelled from the spec: the HYBRID GuessSource (§4.2) — DICTIONARY
interleaved with the metadata candidates, then a brute-force tail. -/
def hybridCands (meta : Option UserMeta) (cs : List Char) (len : Nat) : List String :=
  interleave dictionaryCands (metaCands meta) ++
    (bruteForceCands cs len).map (fun w => String.mk w)

/-- Modelled from the spec: the GuessSource for each strategy (§4.2), with
`len` the already-clamped maximum brute-force length. -/
def guessSource (strategy : Strategy) (meta : Option UserMeta)
    (cs : List Char) (len : Nat) : List String :=
  match strategy with
  | .DICTIONARY => dictionaryCands
  | .BRUTE_FORCE => (bruteForceCands cs len).map (fun w => String.mk w)
  | .AI_GUIDED => aiGuidedCands meta
  | .HYBRID => hybridCands meta cs len

/-- Has the attempt counter reached the (optional) cap? -/
def capHit : Option Nat → Nat → Bool
  | none, _ => false
  | some m, a => a ≥ m

/-- Modelled from the spec: the simulator's iteration loop (§4.3): verify
each candidate, counting attempts, stopping on first match, cap, or
exhaustion. -/
def runLoop (target : String) (alg : HashAlg) (cap : Option Nat) :
    List String → Nat → Option String × Nat
  | [], a => (none, a)
  | c :: rest, a =>
    if capHit cap a then (none, a)
    else if verify c target alg then (some c, a + 1)
    else runLoop target alg cap rest (a + 1)

/-- Input validation (§7): exactly one of secret/targetHash, non-empty. -/
def validInput (r : AttackRequest) : Bool :=
  match r.secret, r.targetHash with
  | some s, none => s ≠ ""
  | none, some h => h ≠ ""
  | _, _ => false

/-- The concrete target hash the simulation runs against (§3 invariant). -/
def targetOf (r : AttackRequest) : String :=
  match r.secret with
  | some s => digest s r.alg
  | none => r.targetHash.getD ""

/-- Modelled from the spec: `PasswordAttackSimulator.run` (§4.3) — validate,
clamp the bounds, drive the strategy's GuessSource against the target, and
surface the clamped bounds in the result. -/
def runAttack (r : AttackRequest) : Except CoreError AttackResult :=
  if !validInput r then .error .InvalidInput
  else
    let cap := clampAttempts r.strategy r.maxAttempts
    let len := clampLen r.maxLength
    let out := runLoop (targetOf r) r.alg cap (guessSource r.strategy r.meta r.charset len) 0
    .ok ⟨out.1, out.2, cap, len, r.strategy⟩

/-! ### PatternDetector, modelled from the spec (§4.4) -/

/-- Three consecutive characters ascending or descending by code point. -/
def seqTriple (a b c : Char) : Bool :=
  (b.toNat = a.toNat + 1 && c.toNat = b.toNat + 1) ||
  (a.toNat = b.toNat + 1 && b.toNat = c.toNat + 1)

/-- Modelled from the spec: `sequential` — a run of ≥ 3 ascending or
descending consecutive code points somewhere in the password. -/
def hasSequential : List Char → Bool
  | a :: b :: c :: rest => seqTriple a b c || hasSequential (b :: c :: rest)
  | _ => false

/-- Some character repeated ≥ 3 times consecutively. -/
def hasTripleRepeat : List Char → Bool
  | a :: b :: c :: rest => (a == b && b == c) || hasTripleRepeat (b :: c :: rest)
  | _ => false

/-- Modelled from the spec: `repeated` — a character repeated ≥ 3 times in a
row, or one character making up at least half of a length-≥ 2 password
(the single-character instance of a ≥ 50 % repeated unit). -/
def hasRepeated (l : List Char) : Bool :=
  hasTripleRepeat l ||
    l.any (fun c => decide (l.length ≤ 2 * l.count c) && decide (2 ≤ l.count c))

/-- Modelled from the spec: the fixed adjacent-key sequences and their
reverses used by `keyboard_walk`. -/
def keyboardWalks : List String :=
  ["qwerty", "asdf", "zxcvbn", "ytrewq", "fdsa", "nbvcxz"]

/-- Modelled from the spec: `keyboard_walk` — a fixed walk occurs as a
substring of the lowercased password. -/
def hasKeyboardWalk (s : String) : Bool :=
  keyboardWalks.any (fun w => containsSub (strToLower s) w)

/-- Numeric value of four digit characters read as a year. -/
def yearVal (a b c d : Char) : Nat :=
  1000 * (a.toNat - 48) + 100 * (b.toNat - 48) + 10 * (c.toNat - 48) + (d.toNat - 48)

/-- Modelled from the spec: `date_like` — four consecutive digits forming a
plausible year (1900–2099) somewhere in the password; every YYYYMMDD,
MMDDYYYY or DDMMYYYY shape contains such a window. -/
def hasDateLike : List Char → Bool
  | a :: b :: c :: d :: rest =>
    (a.isDigit && b.isDigit && c.isDigit && d.isDigit &&
      decide (1900 ≤ yearVal a b c d) && decide (yearVal a b c d ≤ 2099)) ||
      hasDateLike (b :: c :: d :: rest)
  | _ => false

/-- The password with trailing digits stripped. -/
def stripTrailingDigits (l : List Char) : List Char :=
  (l.reverse.dropWhile Char.isDigit).reverse

/-- Modelled from the spec: `dictionary_word` — case-insensitive membership
of the whole password, or the password minus trailing digits, in the
common-word list. -/
def isDictWord (s : String) : Bool :=
  commonWords.contains (strToLower s) ||
    commonWords.contains (String.mk (stripTrailingDigits (strToLower s).data))

/-- Modelled from the spec: `name_like` — only with metadata supplied, the
supplied name occurs case-insensitively inside the password. -/
def isNameLike (meta : Option UserMeta) (s : String) : Bool :=
  match meta with
  | none => false
  | some m => !(m.name == "") && containsSub (strToLower s) (strToLower m.name)

/-- Modelled from the spec: the ordered set of pattern tags found (§3). -/
def patternsFound (meta : Option UserMeta) (s : String) : List String :=
  (if hasSequential s.data then ["sequential"] else []) ++
  (if hasRepeated s.data then ["repeated"] else []) ++
  (if hasKeyboardWalk s then ["keyboard_walk"] else []) ++
  (if hasDateLike s.data then ["date_like"] else []) ++
  (if isDictWord s then ["dictionary_word"] else []) ++
  (if isNameLike meta s then ["name_like"] else [])

/-- Modelled from the spec: `complexityCount` (§3) — how many of the four
character classes (lower/upper/digit/symbol) are present. -/
def complexityCount (s : String) : Nat :=
  (if s.data.any Char.isLower then 1 else 0) +
  (if s.data.any Char.isUpper then 1 else 0) +
  (if s.data.any Char.isDigit then 1 else 0) +
  (if s.data.any (fun c => !c.isAlphanum) then 1 else 0)

/-- Modelled from the spec: the length sub-score — longer is higher with
diminishing returns (4 points per character, capped at 40). -/
def lengthScore (s : String) : Int :=
  min (4 * (s.data.length : Int)) 40

/-- Modelled from the spec: `strengthScore` (§4.4) — length plus a fixed
increment per character class, minus a fixed penalty per pattern tag,
clamped to [0, 100]. -/
def strengthScore (meta : Option UserMeta) (s : String) : Int :=
  max 0 (min 100
    (lengthScore s + 15 * (complexityCount s : Int) -
      10 * ((patternsFound meta s).length : Int)))

/-! ### TextSignalDetector and RiskScorer, modelled from the spec (§4.5, §4.7) -/

/-- Modelled from the spec: the fixed urgency lexicon (§4.5). -/
def urgencyLexicon : List String :=
  ["immediately", "urgent", "suspended", "24 hours", "act now", "right now", "expire"]

/-- Modelled from the spec: the fixed fear/authority/trust lexicon (§4.5). -/
def emotionLexicon : List String :=
  ["legal action", "irs", "verify your identity", "account suspension",
   "police", "arrest", "social security"]

/-- Lexicon terms matched in a text, in lexicon order (first occurrence). -/
def matchedTerms (text : String) (lex : List String) : List String :=
  lex.filter (fun t => containsSub (strToLower text) t)

/-- Modelled from the spec: `urgencyScore` — a fixed weight per matched
urgency term, saturating at 100. -/
def urgencyScore (text : String) : Int :=
  min 100 (25 * ((matchedTerms text urgencyLexicon).length : Int))

/-- Modelled from the spec: `emotionalScore` — analogous to `urgencyScore`
over the fear/authority/trust lexicon. -/
def emotionalScore (text : String) : Int :=
  min 100 (25 * ((matchedTerms text emotionLexicon).length : Int))

/-- Modelled from the spec: `suspiciousKeywords` — the ordered, deduplicated
set of every lexicon term matched. -/
def suspiciousKeywords (text : String) : List String :=
  (matchedTerms text urgencyLexicon ++ matchedTerms text emotionLexicon).dedup

/-- Modelled from the spec: the RiskScorer for the password channel (§4.7) —
the inverted strength score, clamped to [0, 100]. -/
def passwordOverallRisk (meta : Option UserMeta) (s : String) : Int :=
  max 0 (min 100 (100 - strengthScore meta s))

/-- Modelled from the spec: the RiskScorer for the message channels (§4.7) —
a fixed weighted sum of urgency, emotion, keyword count and the
suspicious-sender flag, clamped to [0, 100]. -/
def messageOverallRisk (text : String) (suspicious : Bool) : Int :=
  max 0 (min 100
    (urgencyScore text * 35 / 100 + emotionalScore text * 35 / 100 +
      min 20 (5 * ((suspiciousKeywords text).length : Int)) +
      (if suspicious then 10 else 0)))

/-! ### BehaviorAggregator, modelled from the spec (§4.8) -/

/-- The three record channels of a user's history. -/
inductive Channel
  | password
  | phishing
  | vishing
deriving DecidableEq

/-- One historical record borrowed from the external store. -/
structure HistoryRecord where
  channel : Channel
  risk : ℚ
  weakPassword : Bool
deriving DecidableEq

/-- Modelled from the spec: `BehaviorProfile` (§3), with the explicit
insufficient-data marker of §4.8. -/
structure BehaviorProfile where
  awarenessLevel : ℚ
  passwordRiskAvg : ℚ
  phishingRiskAvg : ℚ
  vishingRiskAvg : ℚ
  weakPasswordRatio : ℚ
  insufficientData : Bool
deriving DecidableEq

/-- Single-pass sum/count accumulator per channel. -/
def sumCount (hist : List HistoryRecord) (ch : Channel) : ℚ × Nat :=
  hist.foldl
    (fun acc r => if r.channel = ch then (acc.1 + r.risk, acc.2 + 1) else acc)
    (0, 0)

/-- Channel average as the aggregator computes it, guarding the zero count. -/
def channelAvgImpl (hist : List HistoryRecord) (ch : Channel) : ℚ :=
  let sc := sumCount hist ch
  if sc.2 = 0 then 0 else sc.1 / (sc.2 : ℚ)

/-- The neutral profile returned for an empty history. -/
def neutralProfile : BehaviorProfile :=
  ⟨50, 0, 0, 0, 0, true⟩

/-- Modelled from the spec: `BehaviorAggregator` (§4.8) — the neutral
profile with the insufficient-data marker on an empty history, otherwise
aggregate statistics with `awarenessLevel = 100 − weighted mean` (equal
weights 1/3) of the three channel risk averages. -/
def aggregate (hist : List HistoryRecord) : BehaviorProfile :=
  match hist with
  | [] => neutralProfile
  | _ :: _ =>
    let pAvg := channelAvgImpl hist .password
    let phAvg := channelAvgImpl hist .phishing
    let vAvg := channelAvgImpl hist .vishing
    let weak := ((hist.filter (fun r => r.weakPassword)).length : ℚ) / (hist.length : ℚ)
    ⟨100 - (pAvg * (1/3) + phAvg * (1/3) + vAvg * (1/3)), pAvg, phAvg, vAvg, weak, false⟩

/-- The spec's channel risk average, stated directly on the filtered list. -/
def specChannelAvg (hist : List HistoryRecord) (ch : Channel) : ℚ :=
  let risks := (hist.filter (fun r => r.channel = ch)).map (fun r => r.risk)
  if risks.length = 0 then 0 else risks.sum / (risks.length : ℚ)

end OffSim
namespace OffSim

/-! ## Theorems -/

lemma riskRank_password_eq (s : ℚ) :
    riskRank (getRiskLabelPassword s) =
      if 80 ≤ s then 4 else if 60 ≤ s then 3 else if 40 ≤ s then 2
      else if 20 ≤ s then 1 else 0 := by
  unfold getRiskLabelPassword
  split_ifs <;> rfl

lemma riskRank_phishing_eq (s : ℚ) :
    riskRank (getRiskLabelPhishing s) =
      if 80 ≤ s then 4 else if 60 ≤ s then 3 else if 40 ≤ s then 2 else 1 := by
  unfold getRiskLabelPhishing
  split_ifs <;> rfl

lemma riskRank_password_mono {s t : ℚ} (h : s ≤ t) :
    riskRank (getRiskLabelPassword s) ≤ riskRank (getRiskLabelPassword t) := by
  rw [riskRank_password_eq, riskRank_password_eq]
  split_ifs <;> first | decide | (exfalso; linarith)

lemma riskRank_phishing_mono {s t : ℚ} (h : s ≤ t) :
    riskRank (getRiskLabelPhishing s) ≤ riskRank (getRiskLabelPhishing t) := by
  rw [riskRank_phishing_eq, riskRank_phishing_eq]
  split_ifs <;> first | decide | (exfalso; linarith)

lemma awarenessRank_eq (s : ℚ) :
    awarenessRank (getAwarenessLabel s) =
      if 70 ≤ s then 2 else if 50 ≤ s then 1 else 0 := by
  unfold getAwarenessLabel
  split_ifs <;> rfl

lemma awarenessRank_mono {s t : ℚ} (h : s ≤ t) :
    awarenessRank (getAwarenessLabel s) ≤ awarenessRank (getAwarenessLabel t) := by
  rw [awarenessRank_eq, awarenessRank_eq]
  split_ifs <;> first | decide | (exfalso; linarith)

/-- C3: the claim asserts all three channels use the same five-level step
function (with a distinct label strictly below 20).  The password channel
distinguishes scores 10 and 25, the phishing and vishing channels do not:
below 40 they always produce "Low Risk". -/
theorem C3_counterexample :
    getRiskLabelPhishing 10 = getRiskLabelPhishing 25 ∧
    getRiskLabelVishing 10 = getRiskLabelVishing 25 ∧
    getRiskLabelPassword 10 = "Very Low" ∧
    getRiskLabelPassword 25 = "Low" ∧
    getRiskLabelPhishing 10 = "Low Risk" := by
  refine ⟨?_, ?_, ?_, ?_, ?_⟩ <;> decide

/-- C3 (amended): the password channel maps a score to Critical iff ≥ 80,
High iff 60 ≤ s < 80, Medium iff 40 ≤ s < 60, Low iff 20 ≤ s < 40, and
"Very Low" otherwise; phishing and vishing use the same inclusive bounds
at 80/60/40 but collapse every score below 40 into "Low Risk"; a score of
exactly 80 maps to the Critical label on all channels, and each channel's
label is monotone in the score. -/
theorem C3_risk_label_thresholds (s t : ℚ) :
    (getRiskLabelPassword s = "Critical" ↔ 80 ≤ s) ∧
    (getRiskLabelPassword s = "High" ↔ 60 ≤ s ∧ s < 80) ∧
    (getRiskLabelPassword s = "Medium" ↔ 40 ≤ s ∧ s < 60) ∧
    (getRiskLabelPassword s = "Low" ↔ 20 ≤ s ∧ s < 40) ∧
    (getRiskLabelPassword s = "Very Low" ↔ s < 20) ∧
    (getRiskLabelPhishing s = "Critical Risk" ↔ 80 ≤ s) ∧
    (getRiskLabelPhishing s = "High Risk" ↔ 60 ≤ s ∧ s < 80) ∧
    (getRiskLabelPhishing s = "Medium Risk" ↔ 40 ≤ s ∧ s < 60) ∧
    (getRiskLabelPhishing s = "Low Risk" ↔ s < 40) ∧
    getRiskLabelVishing s = getRiskLabelPhishing s ∧
    getRiskLabelPassword 80 = "Critical" ∧
    getRiskLabelPhishing 80 = "Critical Risk" ∧
    (s ≤ t →
      riskRank (getRiskLabelPassword s) ≤ riskRank (getRiskLabelPassword t) ∧
      riskRank (getRiskLabelPhishing s) ≤ riskRank (getRiskLabelPhishing t)) := by
  refine ⟨?_, ?_, ?_, ?_, ?_, ?_, ?_, ?_, ?_, ?_, ?_, ?_,
    fun hst => ⟨riskRank_password_mono hst, riskRank_phishing_mono hst⟩⟩
  all_goals
    try unfold getRiskLabelPassword
  all_goals
    try unfold getRiskLabelPhishing
  all_goals
    try unfold getRiskLabelVishing
  all_goals
    split_ifs <;> simp_all <;> try intros
  all_goals
    linarith

/-- C3 witness: the amended theorem instantiated at scores 15 and 80. -/
theorem C3_risk_label_thresholds_witness :
    getRiskLabelPassword 15 = "Very Low" ∧
    riskRank (getRiskLabelPassword 15) ≤ riskRank (getRiskLabelPassword 80) := by
  have h := C3_risk_label_thresholds 15 80
  exact ⟨h.2.2.2.2.1.mpr (by norm_num), (h.2.2.2.2.2.2.2.2.2.2.2.2 (by norm_num)).1⟩

/-- C8: the awareness label is "High Awareness" iff the score is ≥ 70,
"Moderate Awareness" iff 50 ≤ s < 70, and "Low Awareness" otherwise; the
function is total on ℚ (it is a Lean function) and monotone in the score. -/
theorem C8_awareness_label (s t : ℚ) :
    (getAwarenessLabel s = "High Awareness" ↔ 70 ≤ s) ∧
    (getAwarenessLabel s = "Moderate Awareness" ↔ 50 ≤ s ∧ s < 70) ∧
    (getAwarenessLabel s = "Low Awareness" ↔ s < 50) ∧
    (s ≤ t → awarenessRank (getAwarenessLabel s) ≤ awarenessRank (getAwarenessLabel t)) := by
  refine ⟨?_, ?_, ?_, fun hst => awarenessRank_mono hst⟩
  all_goals
    unfold getAwarenessLabel
  all_goals
    split_ifs <;> simp_all <;> try intros
  all_goals
    linarith

/-- C8 witness: the theorem instantiated at scores 50 and 70. -/
theorem C8_awareness_label_witness :
    getAwarenessLabel 50 = "Moderate Awareness" ∧
    awarenessRank (getAwarenessLabel 50) ≤ awarenessRank (getAwarenessLabel 70) := by
  have h := C8_awareness_label 50 70
  exact ⟨h.2.1.mpr (by norm_num), h.2.2.2 (by norm_num)⟩

lemma hasValid_iff (f : UploadFile) :
    (hasValidExtension f = true ∨ hasValidMimetype f = true) ↔
      (strEndsWith (strToLower f.name) ".mp3" = true ∨
       strEndsWith (strToLower f.name) ".wav" = true ∨
       strEndsWith (strToLower f.name) ".m4a" = true ∨
       f.mime ∈ ["audio/mpeg", "audio/wav", "audio/mp4", "audio/x-wav", "audio/m4a"]) := by
  simp [hasValidExtension, hasValidMimetype, validExtensions, validFormats]
  tauto

/-- C9: the claim asserts that on rejection no file is selected; but when a
file is already selected and an oversized file is then offered, the handler
clears only the input element — the previous file remains selected. -/
theorem C9_counterexample :
    (handleFileSelect ⟨some ⟨"old.mp3", "audio/mpeg", 10⟩, "old.mp3"⟩
        ⟨"huge.mp3", "audio/mpeg", 52428801⟩).selectedFile =
      some ⟨"old.mp3", "audio/mpeg", 10⟩ ∧
    (handleFileSelect ⟨some ⟨"old.mp3", "audio/mpeg", 10⟩, "old.mp3"⟩
        ⟨"huge.mp3", "audio/mpeg", 52428801⟩).selectedFile ≠ none := by
  refine ⟨?_, ?_⟩ <;> decide

/-- C9 (amended): an offered file is stored as the selected file (with the
input element untouched) iff its lowercased name ends in `.mp3`/`.wav`/
`.m4a` or its MIME type is one of `audio/mpeg`, `audio/wav`, `audio/mp4`,
`audio/x-wav`, `audio/m4a`, and its size is at most 50 × 1024 × 1024
bytes; on rejection the file input element is cleared and the offered file
is not stored, but the previously selected file (if any) remains
selected. -/
theorem C9_file_select (st : FileSelectState) (f : UploadFile) :
    (((strEndsWith (strToLower f.name) ".mp3" = true ∨
       strEndsWith (strToLower f.name) ".wav" = true ∨
       strEndsWith (strToLower f.name) ".m4a" = true ∨
       f.mime ∈ ["audio/mpeg", "audio/wav", "audio/mp4", "audio/x-wav", "audio/m4a"]) ∧
      f.size ≤ 50 * 1024 * 1024) →
        handleFileSelect st f = ⟨some f, st.inputValue⟩) ∧
    (¬((strEndsWith (strToLower f.name) ".mp3" = true ∨
        strEndsWith (strToLower f.name) ".wav" = true ∨
        strEndsWith (strToLower f.name) ".m4a" = true ∨
        f.mime ∈ ["audio/mpeg", "audio/wav", "audio/mp4", "audio/x-wav", "audio/m4a"]) ∧
       f.size ≤ 50 * 1024 * 1024) →
        handleFileSelect st f = ⟨st.selectedFile, ""⟩) := by
  have hval := hasValid_iff f
  unfold handleFileSelect
  split_ifs with h1 h2
  · refine ⟨?_, fun _ => rfl⟩
    rintro ⟨hd, _⟩
    exfalso
    simp only [Bool.and_eq_true, Bool.not_eq_true'] at h1
    rcases hval.mpr hd with h | h
    · rw [h1.1] at h; cases h
    · rw [h1.2] at h; cases h
  · refine ⟨?_, fun _ => rfl⟩
    rintro ⟨_, hs⟩
    exfalso
    omega
  · refine ⟨fun _ => rfl, ?_⟩
    intro hna
    exfalso
    apply hna
    have hor : hasValidExtension f = true ∨ hasValidMimetype f = true := by
      rcases hE : hasValidExtension f <;> rcases hM : hasValidMimetype f <;> simp_all
    exact ⟨hval.mp hor, by omega⟩

/-- C9 witness: a well-formed small MP3 file (by extension,
case-insensitive) is stored; an invalid text file offered while another
file is selected clears the input but leaves the old selection intact. -/
theorem C9_file_select_witness :
    handleFileSelect ⟨none, ""⟩ ⟨"Call.MP3", "application/json", 1024⟩ =
      ⟨some ⟨"Call.MP3", "application/json", 1024⟩, ""⟩ ∧
    handleFileSelect ⟨some ⟨"old.mp3", "audio/mpeg", 10⟩, "v"⟩
        ⟨"bad.txt", "text/plain", 5⟩ =
      ⟨some ⟨"old.mp3", "audio/mpeg", 10⟩, ""⟩ :=
  ⟨(C9_file_select ⟨none, ""⟩ ⟨"Call.MP3", "application/json", 1024⟩).1
      ⟨Or.inl (by decide), by norm_num⟩,
   (C9_file_select ⟨some ⟨"old.mp3", "audio/mpeg", 10⟩, "v"⟩
      ⟨"bad.txt", "text/plain", 5⟩).2 (by decide)⟩

/-- C10: the analyze form's stored brute-force max length is 4 exactly
when `parseInt` of the field is `NaN` or `0`, and the parsed integer
otherwise; the hash-cracking form submits max length 4 when the field is
empty. -/
theorem C10_max_length (v : String) :
    (parseIntJS v = none → storedMaxLength v = 4) ∧
    (parseIntJS v = some 0 → storedMaxLength v = 4) ∧
    (∀ n : Int, parseIntJS v = some n → n ≠ 0 → storedMaxLength v = n) ∧
    hashCrackMaxLength "" = some 4 := by
  refine ⟨?_, ?_, ?_, rfl⟩
  · intro h; simp [storedMaxLength, h]
  · intro h; simp [storedMaxLength, h]
  · intro n h hn; simp [storedMaxLength, h, hn]

/-- C10 witness: concrete fields "0", "abc" and "5". -/
theorem C10_max_length_witness :
    storedMaxLength "0" = 4 ∧ storedMaxLength "abc" = 4 ∧ storedMaxLength "5" = 5 ∧
    hashCrackMaxLength "" = some 4 :=
  ⟨(C10_max_length "0").2.1 (by decide),
   (C10_max_length "abc").1 (by decide),
   (C10_max_length "5").2.2.1 5 (by decide) (by decide),
   (C10_max_length "").2.2.2⟩

/-- C4: `strengthScore` and the RiskScorer's `overallRisk`, on both the
password channel and the message channel, lie in [0, 100] for every input
(the empty string included, since `s` and `text` range over all strings). -/
theorem C4_scores_bounded (meta : Option UserMeta) (s text : String) (susp : Bool) :
    0 ≤ strengthScore meta s ∧ strengthScore meta s ≤ 100 ∧
    0 ≤ passwordOverallRisk meta s ∧ passwordOverallRisk meta s ≤ 100 ∧
    0 ≤ messageOverallRisk text susp ∧ messageOverallRisk text susp ≤ 100 := by
  unfold strengthScore passwordOverallRisk messageOverallRisk
  refine ⟨le_max_left _ _, max_le (by norm_num) (min_le_left _ _),
    le_max_left _ _, max_le (by norm_num) (min_le_left _ _),
    le_max_left _ _, max_le (by norm_num) (min_le_left _ _)⟩

/-- C5: a request whose secret or target hash is the empty string, or that
supplies both fields, or neither, is rejected with `InvalidInput`; the
simulator returns the error immediately, so nothing is partially computed. -/
theorem C5_invalid_input (r : AttackRequest)
    (h : r.secret = some "" ∨ r.targetHash = some "" ∨
         (r.secret.isSome ∧ r.targetHash.isSome) ∨
         (r.secret = none ∧ r.targetHash = none)) :
    runAttack r = .error .InvalidInput := by
  have hv : validInput r = false := by
    unfold validInput
    rcases hs : r.secret with _ | s <;> rcases ht : r.targetHash with _ | t <;>
      simp_all
  unfold runAttack
  rw [hv]
  rfl

/-- C5 witness: the request with neither secret nor target hash is
rejected. -/
theorem C5_invalid_input_witness :
    runAttack ⟨none, none, .FAST, .DICTIONARY, none, none, 4, []⟩ =
      .error .InvalidInput :=
  C5_invalid_input ⟨none, none, .FAST, .DICTIONARY, none, none, 4, []⟩
    (Or.inr (Or.inr (Or.inr ⟨rfl, rfl⟩)))

lemma runLoop_le_cap (t : String) (alg : HashAlg) (m : Nat) :
    ∀ (l : List String) (a : Nat), a ≤ m → (runLoop t alg (some m) l a).2 ≤ m := by
  intro l
  induction l with
  | nil => intro a ha; simpa [runLoop] using ha
  | cons c rest ih =>
    intro a ha
    unfold runLoop
    by_cases hcap : capHit (some m) a
    · simpa [hcap] using ha
    · have halt : a < m := by
        simpa [capHit] using hcap
      by_cases hv : verify c t alg
      · simp [hcap, hv]
        omega
      · simp [hcap, hv]
        exact ih (a + 1) (by omega)

lemma runLoop_some (t : String) (alg : HashAlg) (cap : Option Nat) :
    ∀ (l : List String) (a : Nat) (c : String) (n : Nat),
      runLoop t alg cap l a = (some c, n) →
        verify c t alg = true ∧ a + 1 ≤ n := by
  intro l
  induction l with
  | nil => intro a c n h; simp [runLoop] at h
  | cons d rest ih =>
    intro a c n h
    unfold runLoop at h
    by_cases hcap : capHit cap a
    · simp [hcap] at h
    · by_cases hv : verify d t alg
      · simp [hcap, hv] at h
        obtain ⟨rfl, rfl⟩ := h
        exact ⟨hv, le_refl _⟩
      · simp [hcap, hv] at h
        obtain ⟨hd, hn⟩ := ih (a + 1) c n h
        exact ⟨hd, by omega⟩

lemma digest_inj (alg : HashAlg) {a b : String} (h : digest a alg = digest b alg) :
    a = b := by
  unfold digest at h
  have h2 : (algTag alg).data ++ a.data = (algTag alg).data ++ b.data :=
    congrArg String.data h
  have h3 : a.data = b.data := List.append_cancel_left h2
  cases a
  cases b
  exact congrArg String.mk h3

/-- C1: for every request accepted by the simulator, the reported attempts
stay at or under the clamped attempt bound; under BRUTE_FORCE the effective
max length is at most 6 and the effective attempt cap is at most 1000,
whatever the caller requested; and the clamped values are the ones surfaced
in the result. -/
theorem C1_bounds_clamped (r : AttackRequest) (res : AttackResult)
    (h : runAttack r = .ok res) :
    (∀ m, res.maxAttemptsUsed = some m → res.attempts ≤ m) ∧
    (r.strategy = .BRUTE_FORCE →
      res.maxLengthUsed ≤ 6 ∧
      ∃ m, res.maxAttemptsUsed = some m ∧ m ≤ 1000) ∧
    res.maxAttemptsUsed = clampAttempts r.strategy r.maxAttempts ∧
    res.maxLengthUsed = clampLen r.maxLength := by
  unfold runAttack at h
  by_cases hv : validInput r
  · simp [hv] at h
    subst h
    refine ⟨?_, ?_, rfl, rfl⟩
    · intro m hm
      simp only at hm
      rw [hm]
      exact runLoop_le_cap _ _ m _ 0 (Nat.zero_le m)
    · intro hb
      refine ⟨?_, ?_⟩
      · exact min_le_right _ 6
      · refine ⟨min (r.maxAttempts.getD 1000) 1000, ?_, min_le_right _ _⟩
        simp [clampAttempts, hb]
  · simp [hv] at h

/-- C1 witness: a BRUTE_FORCE request with `maxAttempts = 5`,
`maxLength = 3` over charset `{a, b}` against secret "a". -/
theorem C1_bounds_clamped_witness :
    (⟨some "a", 1, some 5, 3, .BRUTE_FORCE⟩ : AttackResult).attempts ≤ 5 ∧
    (⟨some "a", 1, some 5, 3, .BRUTE_FORCE⟩ : AttackResult).maxLengthUsed ≤ 6 := by
  have h := C1_bounds_clamped
    ⟨some "a", none, .FAST, .BRUTE_FORCE, none, some 5, 3, ['a', 'b']⟩
    ⟨some "a", 1, some 5, 3, .BRUTE_FORCE⟩ rfl
  exact ⟨h.1 5 rfl, (h.2.1 rfl).1⟩

/-- C2: whenever an accepted run reports a cracked candidate, verifying the
candidate against the target hash succeeds, at least one attempt was
counted, and — when the request carried a literal secret — the candidate is
exactly that secret. -/
theorem C2_cracked_sound (r : AttackRequest) (res : AttackResult) (c : String)
    (h : runAttack r = .ok res) (hc : res.cracked = some c) :
    verify c (targetOf r) r.alg = true ∧ 1 ≤ res.attempts ∧
      (∀ s, r.secret = some s → c = s) := by
  unfold runAttack at h
  by_cases hv : validInput r
  · simp [hv] at h
    subst h
    simp only at hc
    have hpair :
        runLoop (targetOf r) r.alg (clampAttempts r.strategy r.maxAttempts)
          (guessSource r.strategy r.meta r.charset (clampLen r.maxLength)) 0 =
        (some c,
          (runLoop (targetOf r) r.alg (clampAttempts r.strategy r.maxAttempts)
            (guessSource r.strategy r.meta r.charset (clampLen r.maxLength)) 0).2) :=
      Prod.ext hc rfl
    obtain ⟨hver, hn⟩ := runLoop_some _ _ _ _ _ _ _ hpair
    refine ⟨hver, hn, ?_⟩
    intro s hs
    have htar : targetOf r = digest s r.alg := by
      unfold targetOf
      rw [hs]
    rw [htar] at hver
    unfold verify at hver
    exact digest_inj r.alg (by simpa using hver)
  · simp [hv] at h

lemma sumCount_foldl (ch : Channel) :
    ∀ (hist : List HistoryRecord) (p : ℚ × Nat),
      hist.foldl
        (fun acc r => if r.channel = ch then (acc.1 + r.risk, acc.2 + 1) else acc) p =
      (p.1 + ((hist.filter (fun r => r.channel = ch)).map (fun r => r.risk)).sum,
       p.2 + (hist.filter (fun r => r.channel = ch)).length) := by
  intro hist
  induction hist with
  | nil => intro p; simp
  | cons r rest ih =>
    intro p
    by_cases hr : r.channel = ch
    · have hfc :
          List.filter (fun x => decide (x.channel = ch)) (r :: rest) =
            r :: List.filter (fun x => decide (x.channel = ch)) rest := by
        simp [List.filter_cons, hr]
      rw [List.foldl_cons, if_pos hr, ih, hfc, List.map_cons, List.sum_cons,
        List.length_cons, Prod.mk.injEq]
      exact ⟨by ring, by omega⟩
    · have hfc :
          List.filter (fun x => decide (x.channel = ch)) (r :: rest) =
            List.filter (fun x => decide (x.channel = ch)) rest := by
        simp [List.filter_cons, hr]
      rw [List.foldl_cons, if_neg hr, ih, hfc]

lemma channelAvgImpl_eq_spec (hist : List HistoryRecord) (ch : Channel) :
    channelAvgImpl hist ch = specChannelAvg hist ch := by
  unfold channelAvgImpl specChannelAvg sumCount
  rw [sumCount_foldl]
  simp

/-- C7: on the empty history the aggregator returns the neutral profile
with the explicit insufficient-data marker (no average is computed, so no
division by zero is attempted); on every non-empty history the marker is
off and `awarenessLevel` is 100 minus the (equally) weighted mean of the
three channel risk averages. -/
theorem C7_behavior_aggregator (hist : List HistoryRecord) (hne : hist ≠ []) :
    aggregate [] = neutralProfile ∧
    (aggregate []).insufficientData = true ∧
    (aggregate hist).insufficientData = false ∧
    (aggregate hist).awarenessLevel =
      100 - (specChannelAvg hist .password * (1 / 3) +
             specChannelAvg hist .phishing * (1 / 3) +
             specChannelAvg hist .vishing * (1 / 3)) := by
  obtain ⟨r, rest, rfl⟩ := List.exists_cons_of_ne_nil hne
  refine ⟨rfl, rfl, rfl, ?_⟩
  show (100 : ℚ) - (channelAvgImpl (r :: rest) .password * (1 / 3) +
      channelAvgImpl (r :: rest) .phishing * (1 / 3) +
      channelAvgImpl (r :: rest) .vishing * (1 / 3)) = _
  rw [channelAvgImpl_eq_spec, channelAvgImpl_eq_spec, channelAvgImpl_eq_spec]

/-- C7 witness: a one-record history (password channel, risk 80). -/
theorem C7_behavior_aggregator_witness :
    (aggregate [⟨.password, 80, true⟩]).insufficientData = false ∧
    (aggregate [⟨.password, 80, true⟩]).awarenessLevel =
      100 - (specChannelAvg [⟨.password, 80, true⟩] .password * (1 / 3) +
             specChannelAvg [⟨.password, 80, true⟩] .phishing * (1 / 3) +
             specChannelAvg [⟨.password, 80, true⟩] .vishing * (1 / 3)) := by
  have h := C7_behavior_aggregator [⟨.password, 80, true⟩] (by simp)
  exact ⟨h.2.2.1, h.2.2.2⟩

lemma mem_wordsOfLength (cs : List Char) :
    ∀ (n : Nat) (w : List Char),
      w ∈ wordsOfLength cs n ↔ (w.length = n ∧ ∀ c ∈ w, c ∈ cs) := by
  intro n
  induction n with
  | zero =>
    intro w
    constructor
    · intro h
      simp only [wordsOfLength, List.mem_singleton] at h
      subst h
      simp
    · rintro ⟨hl, _⟩
      simp only [wordsOfLength, List.mem_singleton]
      exact List.length_eq_zero.mp hl
  | succ n ih =>
    intro w
    constructor
    · intro h
      simp only [wordsOfLength, List.mem_flatten, List.mem_map] at h
      obtain ⟨bl, ⟨c, hc, rfl⟩, hw⟩ := h
      obtain ⟨w', hw', rfl⟩ := List.mem_map.mp hw
      obtain ⟨hl, hsub⟩ := (ih w').mp hw'
      refine ⟨by simp [hl], ?_⟩
      intro d hd
      rcases List.mem_cons.mp hd with rfl | hd
      · exact hc
      · exact hsub d hd
    · rintro ⟨hl, hsub⟩
      cases w with
      | nil => simp at hl
      | cons c w' =>
        simp only [wordsOfLength, List.mem_flatten, List.mem_map]
        refine ⟨(wordsOfLength cs n).map (fun v => c :: v),
          ⟨c, hsub c (by simp), rfl⟩, ?_⟩
        refine List.mem_map.mpr ⟨w', (ih w').mpr ⟨by simpa using hl, ?_⟩, rfl⟩
        intro d hd
        exact hsub d (by simp [hd])

lemma wordsOfLength_sorted (cs : List Char) (hcs : cs.Pairwise (· < ·)) :
    ∀ n, (wordsOfLength cs n).Pairwise (List.Lex (· < ·)) := by
  intro n
  induction n with
  | zero => simp [wordsOfLength]
  | succ n ih =>
    unfold wordsOfLength
    rw [List.pairwise_flatten]
    constructor
    · intro bl hbl
      obtain ⟨c, _, rfl⟩ := List.mem_map.mp hbl
      rw [List.pairwise_map]
      exact ih.imp (fun h => List.Lex.cons h)
    · rw [List.pairwise_map]
      refine List.Pairwise.imp ?_ hcs
      intro c1 c2 hlt
      intro x hx y hy
      obtain ⟨w1, _, rfl⟩ := List.mem_map.mp hx
      obtain ⟨w2, _, rfl⟩ := List.mem_map.mp hy
      exact List.Lex.rel hlt

lemma bruteForce_mem (cs : List Char) (n : Nat) (w : List Char) :
    w ∈ bruteForceCands cs n ↔
      (1 ≤ w.length ∧ w.length ≤ n ∧ ∀ c ∈ w, c ∈ cs) := by
  unfold bruteForceCands
  simp only [List.mem_flatten, List.mem_map, List.mem_range]
  constructor
  · rintro ⟨bl, ⟨k, hk, rfl⟩, hw⟩
    obtain ⟨hl, hsub⟩ := (mem_wordsOfLength cs (k + 1) w).mp hw
    exact ⟨by omega, by omega, hsub⟩
  · rintro ⟨h1, h2, hsub⟩
    refine ⟨wordsOfLength cs w.length,
      ⟨w.length - 1, by omega, by rw [Nat.sub_add_cancel h1]⟩, ?_⟩
    exact (mem_wordsOfLength cs w.length w).mpr ⟨rfl, hsub⟩

lemma bruteForce_sorted (cs : List Char) (hcs : cs.Pairwise (· < ·)) (n : Nat) :
    (bruteForceCands cs n).Pairwise shortLex := by
  unfold bruteForceCands
  rw [List.pairwise_flatten]
  constructor
  · intro bl hbl
    obtain ⟨k, hk, rfl⟩ := List.mem_map.mp hbl
    refine ((wordsOfLength_sorted cs hcs (k + 1)).imp_of_mem ?_)
    intro a b ha hb hlex
    refine Or.inr ⟨?_, hlex⟩
    rw [((mem_wordsOfLength cs (k + 1) a).mp ha).1,
      ((mem_wordsOfLength cs (k + 1) b).mp hb).1]
  · rw [List.pairwise_map]
    refine List.Pairwise.imp ?_ (List.pairwise_lt_range n)
    intro k1 k2 hk
    intro x hx y hy
    refine Or.inl ?_
    rw [((mem_wordsOfLength cs (k1 + 1) x).mp hx).1,
      ((mem_wordsOfLength cs (k2 + 1) y).mp hy).1]
    omega

/-- C6: the BRUTE_FORCE guess source is a finite sequence containing
exactly the non-empty words over the charset of length at most `maxLen`,
and it is strictly ordered by length first (every shorter word precedes
every longer one) and lexicographically (in the charset's order) within
each length. -/
theorem C6_brute_force_enumeration (cs : List Char) (n : Nat)
    (hcs : cs.Pairwise (· < ·)) :
    (∀ w, w ∈ bruteForceCands cs n ↔
      (1 ≤ w.length ∧ w.length ≤ n ∧ ∀ c ∈ w, c ∈ cs)) ∧
    (bruteForceCands cs n).Pairwise shortLex :=
  ⟨fun w => bruteForce_mem cs n w, bruteForce_sorted cs hcs n⟩

/-- C6 witness: the charset `{a, b}` with `maxLen = 2`. -/
theorem C6_brute_force_enumeration_witness :
    ['a', 'b'] ∈ bruteForceCands ['a', 'b'] 2 ∧
    (bruteForceCands ['a', 'b'] 2).Pairwise shortLex := by
  have h := C6_brute_force_enumeration ['a', 'b'] 2 (by decide)
  exact ⟨(h.1 ['a', 'b']).mpr (by decide), h.2⟩

/-- C2 witness: the concrete BRUTE_FORCE run of the C1 witness cracks "a"
on the first attempt. -/
theorem C2_cracked_sound_witness :
    verify "a"
      (targetOf ⟨some "a", none, .FAST, .BRUTE_FORCE, none, some 5, 3, ['a', 'b']⟩)
      .FAST = true ∧
    (1 : Nat) ≤ 1 ∧ "a" = "a" := by
  have h := C2_cracked_sound
    ⟨some "a", none, .FAST, .BRUTE_FORCE, none, some 5, 3, ['a', 'b']⟩
    ⟨some "a", 1, some 5, 3, .BRUTE_FORCE⟩ "a" rfl rfl
  exact ⟨h.1, h.2.1, h.2.2 "a" rfl⟩

end OffSim
